import Mathlib

/-!
Shallow embedding of `src/wasm/nam-multi-instance.cpp` (Neural Amp Modeler
multi-instance WASM module).

The C++ file keeps four pieces of process-global state:
  * `std::map<int, std::unique_ptr<nam::DSP>> instances` — modelled as an
    association list `List (Int × Option ε)` with unique keys (an entry with
    value `none` is a created instance holding a null engine pointer);
  * `int nextInstanceId = 0`;
  * `float sampleRate = 48000.0f` and `int maxBufferSize = 128`;
  * `bool fastTanhEnabled = false`.

The NAM engine (`nam::DSP`) is an external collaborator; it is modelled as an
opaque type `ε` together with a record `EngineOps` of the operations the
module calls on it: the factory `nam::get_dsp` (which can throw — modelled as
`Except Unit`, an exception during `Reset`/`prewarm` inside the same `try`
block has the same observable outcome: `false` is returned and the engine
slot is not written), `Reset(sampleRate, maxBufferSize)`, `prewarm()`,
`process(input, output, numFrames)` (stateful: returns the updated engine and
the output block), `HasLoudness()` and `GetLoudness()`.

Audio samples are `Float` (C `float*` blocks become `List Float`); the bypass
`memcpy(output, input, numFrames * sizeof(float))` becomes `input.take n`.
C++ `int` ids are modelled as unbounded `Int` (id exhaustion is an explicit
non-goal of the design).
-/

namespace NamWasm

/-- External collaborator contract of the NAM engine (`nam::DSP` and the
`nam::get_dsp` factory), as used by `nam-multi-instance.cpp`. -/
structure EngineOps (ε : Type) where
  getDsp : String → Except Unit (Option ε)
  Reset : ε → Float → Int → ε
  prewarm : ε → ε
  processE : ε → List Float → Nat → ε × List Float
  HasLoudness : ε → Bool
  GetLoudness : ε → Float

/-- The instance registry: `std::map<int, std::unique_ptr<nam::DSP>>`.
A `none` value is a present entry holding a null pointer. -/
abbrev Registry (ε : Type) := List (Int × Option ε)

/-- `instances.find(id)`: `none` means the handle is absent from the map,
`some v` means the entry is present with engine slot `v`. -/
def lookupA {ε : Type} : Registry ε → Int → Option (Option ε)
  | [], _ => none
  | (k, v) :: rest, id => if k = id then some v else lookupA rest id

/-- `instances[id] = v`: overwrite the entry if the key is present, insert it
otherwise (`std::map::operator[]` semantics). -/
def setA {ε : Type} : Registry ε → Int → Option ε → Registry ε
  | [], id, v => [(id, v)]
  | (k, w) :: rest, id, v =>
      if k = id then (id, v) :: rest else (k, w) :: setA rest id v

/-- `instances.erase(it)`: remove the entry with the given key (no-op when
the key is absent). -/
def eraseA {ε : Type} : Registry ε → Int → Registry ε
  | [], _ => []
  | (k, v) :: rest, id =>
      if k = id then eraseA rest id else (k, v) :: eraseA rest id

/-- The process-global mutable state of `nam-multi-instance.cpp`. -/
structure NamState (ε : Type) where
  instances : Registry ε
  nextInstanceId : Int
  sampleRate : Float
  maxBufferSize : Int
  fastTanhEnabled : Bool

/-- State at process start: empty registry, `nextInstanceId = 0`,
`sampleRate = 48000.0f`, `maxBufferSize = 128`, `fastTanhEnabled = false`. -/
def initState (ε : Type) : NamState ε :=
  { instances := []
    nextInstanceId := 0
    sampleRate := 48000.0
    maxBufferSize := 128
    fastTanhEnabled := false }

variable {ε : Type}

/-- `nam_createInstance`: returns `nextInstanceId++` and inserts an empty
entry `instances[id] = nullptr`. -/
def nam_createInstance (s : NamState ε) : Int × NamState ε :=
  (s.nextInstanceId,
   { s with
      instances := setA s.instances s.nextInstanceId none
      nextInstanceId := s.nextInstanceId + 1 })

/-- `nam_destroyInstance`: erase the entry if present. -/
def nam_destroyInstance (s : NamState ε) (id : Int) : NamState ε :=
  { s with instances := eraseA s.instances id }

/-- `nam_getInstanceCount`: `instances.size()`. -/
def nam_getInstanceCount (s : NamState ε) : Int :=
  (s.instances.length : Int)

/-- `nam_loadModel`: fail if the handle is unknown; otherwise enable fast
tanh on first load (this happens before `get_dsp`, inside the `try` block),
construct the engine, and on success `Reset` it with the current global
config, `prewarm` it and store it.  Returns the `bool` result together with
the new state.  A thrown exception (`Except.error`) or a null engine from
the factory yields `false` with the engine slot untouched. -/
def nam_loadModel (ops : EngineOps ε) (s : NamState ε) (id : Int)
    (jsonStr : String) : Bool × NamState ε :=
  match lookupA s.instances id with
  | none => (false, s)
  | some _ =>
    let s1 := if s.fastTanhEnabled then s else { s with fastTanhEnabled := true }
    match ops.getDsp jsonStr with
    | .error _ => (false, s1)
    | .ok none => (false, s1)
    | .ok (some dsp) =>
        let dsp1 := ops.prewarm (ops.Reset dsp s.sampleRate s.maxBufferSize)
        (true, { s1 with instances := setA s1.instances id (some dsp1) })

/-- `nam_unloadModel`: if the entry is present, null its engine slot
(`it->second.reset()`); no-op otherwise. -/
def nam_unloadModel (s : NamState ε) (id : Int) : NamState ε :=
  match lookupA s.instances id with
  | none => s
  | some _ => { s with instances := setA s.instances id none }

/-- `nam_hasModel`: entry present with a non-null engine. -/
def nam_hasModel (s : NamState ε) (id : Int) : Bool :=
  match lookupA s.instances id with
  | some (some _) => true
  | _ => false

/-- `nam_process`: route through the engine when present
(`it->second->process(input, output, numFrames)`, stateful), otherwise
bypass: `memcpy(output, input, numFrames * sizeof(float))`, i.e. the first
`numFrames` input samples verbatim. -/
def nam_process (ops : EngineOps ε) (s : NamState ε) (id : Int)
    (input : List Float) (numFrames : Nat) : NamState ε × List Float :=
  match lookupA s.instances id with
  | some (some e) =>
      let r := ops.processE e input numFrames
      ({ s with instances := setA s.instances id (some r.1) }, r.2)
  | _ => (s, input.take numFrames)

/-- Apply `g` to every non-null engine slot of the registry (the
`for (auto& [id, dsp] : instances) if (dsp) ...` loops). -/
def mapVals (g : ε → ε) (l : Registry ε) : Registry ε :=
  l.map fun p => (p.1, p.2.map g)

/-- `nam_setSampleRate`: store the new rate, then `Reset(rate, maxBufferSize)`
every non-null engine. -/
def nam_setSampleRate (ops : EngineOps ε) (s : NamState ε) (rate : Float) :
    NamState ε :=
  { s with
      sampleRate := rate
      instances := mapVals (fun e => ops.Reset e rate s.maxBufferSize) s.instances }

/-- `nam_getSampleRate`. -/
def nam_getSampleRate (s : NamState ε) : Float := s.sampleRate

/-- `nam_setMaxBufferSize`: store the new size, then
`Reset(sampleRate, maxBufferSize)` every non-null engine. -/
def nam_setMaxBufferSize (ops : EngineOps ε) (s : NamState ε) (size : Int) :
    NamState ε :=
  { s with
      maxBufferSize := size
      instances := mapVals (fun e => ops.Reset e s.sampleRate size) s.instances }

/-- `nam_getMaxBufferSize`. -/
def nam_getMaxBufferSize (s : NamState ε) : Int := s.maxBufferSize

/-- `nam_getModelLoudness`: the engine loudness when the entry is present,
non-null and `HasLoudness()`; `0.0f` otherwise. -/
def nam_getModelLoudness (ops : EngineOps ε) (s : NamState ε) (id : Int) :
    Float :=
  match lookupA s.instances id with
  | some (some e) => if ops.HasLoudness e then ops.GetLoudness e else 0.0
  | _ => 0.0

/-- `nam_hasModelLoudness`: entry present, non-null and `HasLoudness()`. -/
def nam_hasModelLoudness (ops : EngineOps ε) (s : NamState ε) (id : Int) :
    Bool :=
  match lookupA s.instances id with
  | some (some e) => ops.HasLoudness e
  | _ => false

/-- `nam_reset`: `Reset(sampleRate, maxBufferSize)` on the engine when the
entry is present and non-null; no-op otherwise. -/
def nam_reset (ops : EngineOps ε) (s : NamState ε) (id : Int) : NamState ε :=
  match lookupA s.instances id with
  | some (some e) =>
      { s with
          instances := setA s.instances id (some (ops.Reset e s.sampleRate s.maxBufferSize)) }
  | _ => s

/-- One external call into the module, for trace properties. -/
inductive Op where
  | create : Op
  | destroy : Int → Op
  | load : Int → String → Op
  | unload : Int → Op
  | reset : Int → Op
  | processOp : Int → List Float → Nat → Op
  | setRate : Float → Op
  | setMaxBuf : Int → Op

/-- State transition of a single call (return values discarded). -/
def step (ops : EngineOps ε) (s : NamState ε) : Op → NamState ε
  | .create => (nam_createInstance s).2
  | .destroy id => nam_destroyInstance s id
  | .load id json => (nam_loadModel ops s id json).2
  | .unload id => nam_unloadModel s id
  | .reset id => nam_reset ops s id
  | .processOp id input n => (nam_process ops s id input n).1
  | .setRate r => nam_setSampleRate ops s r
  | .setMaxBuf n => nam_setMaxBufferSize ops s n

/-- Run a sequence of calls. -/
def runOps (ops : EngineOps ε) (s : NamState ε) : List Op → NamState ε
  | [] => s
  | op :: l => runOps ops (step ops s op) l

/-- The handles returned by the `createInstance` calls of a trace, in call
order. -/
def issued (ops : EngineOps ε) (s : NamState ε) : List Op → List Int
  | [] => []
  | .create :: l => (nam_createInstance s).1 :: issued ops (step ops s .create) l
  | op :: l => issued ops (step ops s op) l

/-- Number of `createInstance` calls in a trace. -/
def createCount : List Op → Nat
  | [] => 0
  | .create :: l => createCount l + 1
  | _ :: l => createCount l

/-- Number of `destroyInstance` calls of a trace whose handle was live
(present in the registry) at the moment of the call. -/
def liveDestroyCount (ops : EngineOps ε) (s : NamState ε) : List Op → Nat
  | [] => 0
  | .destroy id :: l =>
      (if (lookupA s.instances id).isSome then 1 else 0) +
        liveDestroyCount ops (step ops s (.destroy id)) l
  | op :: l => liveDestroyCount ops (step ops s op) l

/-! Concrete engine instantiations, used to evaluate the module on concrete
inputs (the engine type is external, so any instantiation of the contract is
admissible). -/

/-- A trivial engine whose factory always succeeds and whose transform is the
identity copy. -/
def okOps : EngineOps Unit :=
  { getDsp := fun _ => .ok (some ())
    Reset := fun e _ _ => e
    prewarm := fun e => e
    processE := fun e input n => (e, input.take n)
    HasLoudness := fun _ => false
    GetLoudness := fun _ => 0.0 }

/-- An engine whose factory returns a null pointer for every description
(every model description is unparseable). -/
def nullOps : EngineOps Unit :=
  { okOps with getDsp := fun _ => .ok none }

/-- An engine whose factory throws for every description. -/
def throwOps : EngineOps Unit :=
  { okOps with getDsp := fun _ => .error () }

/-- An engine that exposes loudness metadata `-18.0`. -/
def loudOps : EngineOps Unit :=
  { okOps with HasLoudness := fun _ => true, GetLoudness := fun _ => -18.0 }

/-- State after one `nam_createInstance` at process start: registry
`[(0, nullptr)]`. -/
def stateOne : NamState Unit := (nam_createInstance (initState Unit)).2

/-- `stateOne` after a successful `nam_loadModel` on handle 0. -/
def stateLoaded : NamState Unit := (nam_loadModel okOps stateOne 0 "model").2

/-- Registry well-formedness relative to the id counter: keys are pairwise
distinct and every present key is strictly below the counter. -/
def RegInv (l : Registry ε) (n : Int) : Prop :=
  (l.map Prod.fst).Nodup ∧ ∀ k : Int, (lookupA l k).isSome → k < n

/-- The module-wide invariant: the registry is well formed relative to
`nextInstanceId`. -/
def NamInv (s : NamState ε) : Prop :=
  RegInv s.instances s.nextInstanceId

/-! Registry lemmas. -/

theorem lookupA_setA_self (l : Registry ε) (k : Int) (v : Option ε) :
    lookupA (setA l k v) k = some v := by
  induction l with
  | nil => simp [setA, lookupA]
  | cons p rest ih =>
      obtain ⟨k', w⟩ := p
      by_cases h : k' = k
      · simp [setA, h, lookupA]
      · simp [setA, h, lookupA, ih]

theorem lookupA_setA_ne (l : Registry ε) (k k' : Int) (v : Option ε)
    (h : k' ≠ k) : lookupA (setA l k v) k' = lookupA l k' := by
  have hks : ¬k = k' := fun hh => h hh.symm
  induction l with
  | nil => simp [setA, lookupA, hks]
  | cons p rest ih =>
      obtain ⟨k₀, w⟩ := p
      by_cases hk : k₀ = k
      · subst hk
        simp [setA, lookupA, hks]
      · simp [setA, hk, lookupA, ih]

theorem lookupA_eraseA_self (l : Registry ε) (k : Int) :
    lookupA (eraseA l k) k = none := by
  induction l with
  | nil => simp [eraseA, lookupA]
  | cons p rest ih =>
      obtain ⟨k₀, w⟩ := p
      by_cases hk : k₀ = k
      · simp [eraseA, hk, ih]
      · simp [eraseA, hk, lookupA, ih]

theorem lookupA_eraseA_ne (l : Registry ε) (k k' : Int) (h : k' ≠ k) :
    lookupA (eraseA l k) k' = lookupA l k' := by
  have hks : ¬k = k' := fun hh => h hh.symm
  induction l with
  | nil => simp [eraseA]
  | cons p rest ih =>
      obtain ⟨k₀, w⟩ := p
      by_cases hk : k₀ = k
      · subst hk
        simp [eraseA, lookupA, hks, ih]
      · simp [eraseA, hk, lookupA, ih]

theorem eraseA_of_lookup_none (l : Registry ε) (k : Int)
    (h : lookupA l k = none) : eraseA l k = l := by
  induction l with
  | nil => simp [eraseA]
  | cons p rest ih =>
      obtain ⟨k₀, w⟩ := p
      by_cases hk : k₀ = k
      · simp [lookupA, hk] at h
      · simp [lookupA, hk] at h
        simp [eraseA, hk, ih h]

theorem eraseA_idem (l : Registry ε) (k : Int) :
    eraseA (eraseA l k) k = eraseA l k :=
  eraseA_of_lookup_none _ _ (lookupA_eraseA_self l k)

theorem setA_lookup_self (l : Registry ε) (k : Int) (v : Option ε)
    (h : lookupA l k = some v) : setA l k v = l := by
  induction l with
  | nil => simp [lookupA] at h
  | cons p rest ih =>
      obtain ⟨k₀, w⟩ := p
      by_cases hk : k₀ = k
      · subst hk
        simp [lookupA] at h
        simp [setA, h]
      · simp [lookupA, hk] at h
        simp [setA, hk, ih h]

theorem lookupA_isSome_iff (l : Registry ε) (k : Int) :
    (lookupA l k).isSome ↔ k ∈ l.map Prod.fst := by
  induction l with
  | nil => simp [lookupA]
  | cons p rest ih =>
      obtain ⟨k₀, w⟩ := p
      by_cases hk : k₀ = k
      · subst hk; simp [lookupA]
      · have hks : ¬k = k₀ := fun hh => hk hh.symm
        simp [lookupA, hk, ih, hks]

theorem keys_setA_present (l : Registry ε) (k : Int) (v : Option ε)
    (h : (lookupA l k).isSome) :
    (setA l k v).map Prod.fst = l.map Prod.fst := by
  induction l with
  | nil => simp [lookupA] at h
  | cons p rest ih =>
      obtain ⟨k₀, w⟩ := p
      by_cases hk : k₀ = k
      · subst hk; simp [setA]
      · simp [lookupA, hk] at h
        simp [setA, hk, ih h]

theorem keys_setA_absent (l : Registry ε) (k : Int) (v : Option ε)
    (h : lookupA l k = none) :
    (setA l k v).map Prod.fst = l.map Prod.fst ++ [k] := by
  induction l with
  | nil => simp [setA]
  | cons p rest ih =>
      obtain ⟨k₀, w⟩ := p
      by_cases hk : k₀ = k
      · simp [lookupA, hk] at h
      · simp [lookupA, hk] at h
        simp [setA, hk, ih h]

theorem keys_eraseA_sublist (l : Registry ε) (k : Int) :
    ((eraseA l k).map Prod.fst).Sublist (l.map Prod.fst) := by
  induction l with
  | nil => simp [eraseA]
  | cons p rest ih =>
      obtain ⟨k₀, w⟩ := p
      by_cases hk : k₀ = k
      · simpa [eraseA, hk] using ih.trans (List.sublist_cons_self _ _)
      · simpa [eraseA, hk] using ih.cons₂ k₀

theorem length_setA_present (l : Registry ε) (k : Int) (v : Option ε)
    (h : (lookupA l k).isSome) : (setA l k v).length = l.length := by
  induction l with
  | nil => simp [lookupA] at h
  | cons p rest ih =>
      obtain ⟨k₀, w⟩ := p
      by_cases hk : k₀ = k
      · subst hk; simp [setA]
      · simp [lookupA, hk] at h
        simp [setA, hk, ih h]

theorem length_setA_absent (l : Registry ε) (k : Int) (v : Option ε)
    (h : lookupA l k = none) : (setA l k v).length = l.length + 1 := by
  induction l with
  | nil => simp [setA]
  | cons p rest ih =>
      obtain ⟨k₀, w⟩ := p
      by_cases hk : k₀ = k
      · simp [lookupA, hk] at h
      · simp [lookupA, hk] at h
        simp [setA, hk, ih h]

theorem length_eraseA_present (l : Registry ε) (k : Int)
    (hnd : (l.map Prod.fst).Nodup) (h : (lookupA l k).isSome) :
    l.length = (eraseA l k).length + 1 := by
  induction l with
  | nil => simp [lookupA] at h
  | cons p rest ih =>
      obtain ⟨k₀, w⟩ := p
      simp only [List.map_cons, List.nodup_cons] at hnd
      by_cases hk : k₀ = k
      · subst hk
        have hrest : lookupA rest k₀ = none := by
          cases hre : lookupA rest k₀ with
          | none => rfl
          | some v =>
              exact absurd ((lookupA_isSome_iff rest k₀).1 (by simp [hre]))
                hnd.1
        simp [eraseA, eraseA_of_lookup_none rest k₀ hrest]
      · simp [lookupA, hk] at h
        simp [eraseA, hk, ih hnd.2 h]

theorem lookupA_mapVals (g : ε → ε) (l : Registry ε) (k : Int) :
    lookupA (mapVals g l) k = (lookupA l k).map (Option.map g) := by
  unfold mapVals
  induction l with
  | nil => simp [lookupA]
  | cons p rest ih =>
      obtain ⟨k₀, w⟩ := p
      by_cases hk : k₀ = k
      · simp [lookupA, hk]
      · simp [lookupA, hk, ih]

theorem keys_mapVals (g : ε → ε) (l : Registry ε) :
    (mapVals g l).map Prod.fst = l.map Prod.fst := by
  simp [mapVals, List.map_map]

/-! Invariant lemmas. -/

theorem regInv_setA_present {l : Registry ε} {n : Int} {id : Int}
    (v : Option ε) (hp : (lookupA l id).isSome) (h : RegInv l n) :
    RegInv (setA l id v) n := by
  obtain ⟨hnd, hlt⟩ := h
  refine ⟨by rw [keys_setA_present l id v hp]; exact hnd, fun k hk => ?_⟩
  by_cases hke : k = id
  · subst hke; exact hlt k hp
  · rw [lookupA_setA_ne l id k v hke] at hk
    exact hlt k hk

theorem regInv_lookup_none_of_ge {l : Registry ε} {n : Int}
    (h : RegInv l n) : lookupA l n = none := by
  cases hl : lookupA l n with
  | none => rfl
  | some v => exact absurd (h.2 n (by simp [hl])) (lt_irrefl n)

theorem regInv_setA_fresh {l : Registry ε} {n : Int} (h : RegInv l n) :
    RegInv (setA l n none) (n + 1) := by
  obtain ⟨hnd, hlt⟩ := h
  have habs : lookupA l n = none := regInv_lookup_none_of_ge ⟨hnd, hlt⟩
  constructor
  · rw [keys_setA_absent l n none habs]
    have hnotmem : n ∉ l.map Prod.fst := by
      rw [← lookupA_isSome_iff]
      simp [habs]
    simp [List.nodup_append, hnd, hnotmem]
  · intro k hk
    by_cases hke : k = n
    · subst hke; omega
    · rw [lookupA_setA_ne l n k none hke] at hk
      have := hlt k hk
      omega

theorem regInv_eraseA {l : Registry ε} {n : Int} (id : Int)
    (h : RegInv l n) : RegInv (eraseA l id) n := by
  obtain ⟨hnd, hlt⟩ := h
  refine ⟨hnd.sublist (keys_eraseA_sublist l id), fun k hk => ?_⟩
  by_cases hke : k = id
  · subst hke; simp [lookupA_eraseA_self] at hk
  · rw [lookupA_eraseA_ne l id k hke] at hk
    exact hlt k hk

theorem regInv_mapVals {l : Registry ε} {n : Int} (g : ε → ε)
    (h : RegInv l n) : RegInv (mapVals g l) n := by
  obtain ⟨hnd, hlt⟩ := h
  refine ⟨by rw [keys_mapVals]; exact hnd, fun k hk => ?_⟩
  rw [lookupA_mapVals] at hk
  exact hlt k (by cases hl : lookupA l k <;> simp [hl] at hk ⊢)

/-! Scalar fields (`nextInstanceId`, `sampleRate`, `maxBufferSize`) are
untouched by the per-handle operations. -/

theorem loadModel_fields (ops : EngineOps ε) (s : NamState ε) (id : Int)
    (json : String) :
    (nam_loadModel ops s id json).2.nextInstanceId = s.nextInstanceId ∧
    (nam_loadModel ops s id json).2.sampleRate = s.sampleRate ∧
    (nam_loadModel ops s id json).2.maxBufferSize = s.maxBufferSize := by
  unfold nam_loadModel
  split
  · exact ⟨rfl, rfl, rfl⟩
  · split <;> split <;> simp_all

theorem unloadModel_fields (s : NamState ε) (id : Int) :
    (nam_unloadModel s id).nextInstanceId = s.nextInstanceId ∧
    (nam_unloadModel s id).sampleRate = s.sampleRate ∧
    (nam_unloadModel s id).maxBufferSize = s.maxBufferSize := by
  unfold nam_unloadModel
  split <;> exact ⟨rfl, rfl, rfl⟩

theorem reset_fields (ops : EngineOps ε) (s : NamState ε) (id : Int) :
    (nam_reset ops s id).nextInstanceId = s.nextInstanceId ∧
    (nam_reset ops s id).sampleRate = s.sampleRate ∧
    (nam_reset ops s id).maxBufferSize = s.maxBufferSize := by
  unfold nam_reset
  split <;> exact ⟨rfl, rfl, rfl⟩

theorem process_fields (ops : EngineOps ε) (s : NamState ε) (id : Int)
    (input : List Float) (n : Nat) :
    (nam_process ops s id input n).1.nextInstanceId = s.nextInstanceId ∧
    (nam_process ops s id input n).1.sampleRate = s.sampleRate ∧
    (nam_process ops s id input n).1.maxBufferSize = s.maxBufferSize := by
  unfold nam_process
  split <;> exact ⟨rfl, rfl, rfl⟩

/-- The engine slot written by `nam_loadModel` is stored only at the target
handle, and only on success. -/
theorem loadModel_instances (ops : EngineOps ε) (s : NamState ε) (id : Int)
    (json : String) :
    ((nam_loadModel ops s id json).1 = false ∧
      (nam_loadModel ops s id json).2.instances = s.instances) ∨
    ((nam_loadModel ops s id json).1 = true ∧
      (lookupA s.instances id).isSome ∧
      ∃ d : ε, ops.getDsp json = .ok (some d) ∧
        (nam_loadModel ops s id json).2.instances =
          setA s.instances id (some (ops.prewarm (ops.Reset d s.sampleRate s.maxBufferSize)))) := by
  unfold nam_loadModel
  cases hl : lookupA s.instances id with
  | none => exact Or.inl ⟨rfl, rfl⟩
  | some v =>
      cases hd : ops.getDsp json with
      | error e =>
          left
          constructor <;> (by_cases hf : s.fastTanhEnabled <;> simp [hf])
      | ok o =>
          cases o with
          | none =>
              left
              constructor <;> (by_cases hf : s.fastTanhEnabled <;> simp [hf])
          | some d =>
              right
              refine ⟨?_, by simp, d, rfl, ?_⟩ <;>
                (by_cases hf : s.fastTanhEnabled <;> simp [hf])

theorem namInv_step (ops : EngineOps ε) (s : NamState ε) (op : Op)
    (h : NamInv s) : NamInv (step ops s op) := by
  cases op with
  | create =>
      simp only [NamInv, step, nam_createInstance]
      exact regInv_setA_fresh h
  | destroy id =>
      simp only [NamInv, step, nam_destroyInstance]
      exact regInv_eraseA id h
  | load id json =>
      have hn := (loadModel_fields ops s id json).1
      simp only [NamInv, step, hn]
      rcases loadModel_instances ops s id json with ⟨_, hi⟩ | ⟨_, hp, d, _, hi⟩
      · rw [hi]; exact h
      · rw [hi]; exact regInv_setA_present _ hp h
  | unload id =>
      have hn := (unloadModel_fields s id).1
      simp only [NamInv, step, hn]
      unfold nam_unloadModel
      cases hl : lookupA s.instances id with
      | none => exact h
      | some v => exact regInv_setA_present _ (by simp [hl]) h
  | reset id =>
      have hn := (reset_fields ops s id).1
      simp only [NamInv, step, hn]
      unfold nam_reset
      cases hl : lookupA s.instances id with
      | none => exact h
      | some v =>
          cases v with
          | none => exact h
          | some e => exact regInv_setA_present _ (by simp [hl]) h
  | processOp id input n =>
      have hn := (process_fields ops s id input n).1
      simp only [NamInv, step, hn]
      unfold nam_process
      cases hl : lookupA s.instances id with
      | none => exact h
      | some v =>
          cases v with
          | none => exact h
          | some e => exact regInv_setA_present _ (by simp [hl]) h
  | setRate r =>
      simp only [NamInv, step, nam_setSampleRate]
      exact regInv_mapVals _ h
  | setMaxBuf m =>
      simp only [NamInv, step, nam_setMaxBufferSize]
      exact regInv_mapVals _ h

theorem namInv_init (ε : Type) : NamInv (initState ε) := by
  refine ⟨by simp [initState], fun k hk => ?_⟩
  simp [initState, lookupA] at hk

/-! Lemmas about the fast-tanh flag. -/

theorem loadModel_unknown_id (ops : EngineOps ε) (s : NamState ε) (id : Int)
    (json : String) (h : lookupA s.instances id = none) :
    nam_loadModel ops s id json = (false, s) := by
  unfold nam_loadModel
  rw [h]

theorem loadModel_flag_known (ops : EngineOps ε) (s : NamState ε) (id : Int)
    (json : String) (h : (lookupA s.instances id).isSome) :
    (nam_loadModel ops s id json).2.fastTanhEnabled = true := by
  unfold nam_loadModel
  cases hl : lookupA s.instances id with
  | none => simp [hl] at h
  | some v =>
      cases hd : ops.getDsp json with
      | error e => by_cases hf : s.fastTanhEnabled <;> simp [hf]
      | ok o =>
          cases o with
          | none => by_cases hf : s.fastTanhEnabled <;> simp [hf]
          | some d => by_cases hf : s.fastTanhEnabled <;> simp [hf]

theorem step_flag (ops : EngineOps ε) (s : NamState ε) (op : Op) :
    (step ops s op).fastTanhEnabled = s.fastTanhEnabled ∨
    (∃ id json, op = Op.load id json ∧ (lookupA s.instances id).isSome ∧
      (step ops s op).fastTanhEnabled = true) := by
  cases op with
  | create => exact Or.inl rfl
  | destroy id => exact Or.inl rfl
  | load id json =>
      cases hl : lookupA s.instances id with
      | none =>
          left
          show (nam_loadModel ops s id json).2.fastTanhEnabled = _
          rw [loadModel_unknown_id ops s id json hl]
      | some v =>
          exact Or.inr ⟨id, json, rfl, by simp [hl],
            loadModel_flag_known ops s id json (by simp [hl])⟩
  | unload id =>
      left
      show (nam_unloadModel s id).fastTanhEnabled = _
      unfold nam_unloadModel
      cases lookupA s.instances id <;> rfl
  | reset id =>
      left
      show (nam_reset ops s id).fastTanhEnabled = _
      unfold nam_reset
      rcases lookupA s.instances id with _ | (_ | e) <;> rfl
  | processOp id input n =>
      left
      show (nam_process ops s id input n).1.fastTanhEnabled = _
      unfold nam_process
      rcases lookupA s.instances id with _ | (_ | e) <;> rfl
  | setRate r => exact Or.inl rfl
  | setMaxBuf m => exact Or.inl rfl

/-! Monotonicity of the id counter along a trace. -/

theorem nextId_step_le (ops : EngineOps ε) (s : NamState ε) (op : Op) :
    s.nextInstanceId ≤ (step ops s op).nextInstanceId := by
  cases op with
  | create =>
      show s.nextInstanceId ≤ s.nextInstanceId + 1
      omega
  | destroy id => exact le_of_eq rfl
  | load id json => exact le_of_eq ((loadModel_fields ops s id json).1).symm
  | unload id => exact le_of_eq ((unloadModel_fields s id).1).symm
  | reset id => exact le_of_eq ((reset_fields ops s id).1).symm
  | processOp id input n =>
      exact le_of_eq ((process_fields ops s id input n).1).symm
  | setRate r => exact le_of_eq rfl
  | setMaxBuf m => exact le_of_eq rfl

theorem issued_aux (ops : EngineOps ε) :
    ∀ (l : List Op) (s : NamState ε),
      (∀ h ∈ issued ops s l, s.nextInstanceId ≤ h) ∧
        (issued ops s l).Pairwise (· < ·) := by
  intro l
  induction l with
  | nil => intro s; simp [issued]
  | cons op rest ih =>
      intro s
      obtain ⟨hlb, hpw⟩ := ih (step ops s op)
      have hle := nextId_step_le ops s op
      cases op with
      | create =>
          have hnext : (step ops s Op.create).nextInstanceId =
              s.nextInstanceId + 1 := rfl
          have hiss : issued ops s (Op.create :: rest) =
              s.nextInstanceId :: issued ops (step ops s Op.create) rest := rfl
          rw [hiss]
          constructor
          · intro h hmem
            rcases List.mem_cons.1 hmem with hh | hh
            · omega
            · have h1 := hlb h hh
              rw [hnext] at h1
              omega
          · refine List.pairwise_cons.2 ⟨fun a ha => ?_, hpw⟩
            have h1 := hlb a ha
            rw [hnext] at h1
            omega
      | destroy id => exact ⟨fun h hm => le_trans hle (hlb h hm), hpw⟩
      | load id json => exact ⟨fun h hm => le_trans hle (hlb h hm), hpw⟩
      | unload id => exact ⟨fun h hm => le_trans hle (hlb h hm), hpw⟩
      | reset id => exact ⟨fun h hm => le_trans hle (hlb h hm), hpw⟩
      | processOp id input n =>
          exact ⟨fun h hm => le_trans hle (hlb h hm), hpw⟩
      | setRate r => exact ⟨fun h hm => le_trans hle (hlb h hm), hpw⟩
      | setMaxBuf m => exact ⟨fun h hm => le_trans hle (hlb h hm), hpw⟩

/-! Bookkeeping of the registry size along a trace. -/

theorem count_aux (ops : EngineOps ε) :
    ∀ (l : List Op) (s : NamState ε), NamInv s →
      (runOps ops s l).instances.length + liveDestroyCount ops s l =
        s.instances.length + createCount l := by
  intro l
  induction l with
  | nil => intro s _; simp [runOps, liveDestroyCount, createCount]
  | cons op rest ih =>
      intro s hInv
      have hrec := ih (step ops s op) (namInv_step ops s op hInv)
      cases op with
      | create =>
          have habs : lookupA s.instances s.nextInstanceId = none :=
            regInv_lookup_none_of_ge hInv
          have hlen : (step ops s Op.create).instances.length =
              s.instances.length + 1 :=
            length_setA_absent s.instances s.nextInstanceId none habs
          simp only [runOps, liveDestroyCount, createCount] at hrec ⊢
          omega
      | destroy id =>
          simp only [runOps, liveDestroyCount, createCount] at hrec ⊢
          cases hl : (lookupA s.instances id).isSome with
          | true =>
              have hlen : s.instances.length =
                  (step ops s (Op.destroy id)).instances.length + 1 :=
                length_eraseA_present s.instances id hInv.1 hl
              norm_num
              omega
          | false =>
              have hnone : lookupA s.instances id = none := by
                cases hx : lookupA s.instances id with
                | none => rfl
                | some v => rw [hx] at hl; simp at hl
              have hlen : (step ops s (Op.destroy id)).instances.length =
                  s.instances.length := by
                show (eraseA s.instances id).length = _
                rw [eraseA_of_lookup_none s.instances id hnone]
              norm_num
              omega
      | load id json =>
          have hlen : (step ops s (Op.load id json)).instances.length =
              s.instances.length := by
            show (nam_loadModel ops s id json).2.instances.length = _
            rcases loadModel_instances ops s id json with ⟨_, hi⟩ | ⟨_, hp, d, _, hi⟩
            · rw [hi]
            · rw [hi]; exact length_setA_present s.instances id _ hp
          simp only [runOps, liveDestroyCount, createCount] at hrec ⊢
          omega
      | unload id =>
          have hlen : (step ops s (Op.unload id)).instances.length =
              s.instances.length := by
            show (nam_unloadModel s id).instances.length = _
            unfold nam_unloadModel
            cases hl : lookupA s.instances id with
            | none => rfl
            | some v => exact length_setA_present s.instances id none (by simp [hl])
          simp only [runOps, liveDestroyCount, createCount] at hrec ⊢
          omega
      | reset id =>
          have hlen : (step ops s (Op.reset id)).instances.length =
              s.instances.length := by
            show (nam_reset ops s id).instances.length = _
            unfold nam_reset
            cases hl : lookupA s.instances id with
            | none => rfl
            | some v =>
                cases v with
                | none => rfl
                | some e =>
                    exact length_setA_present s.instances id _ (by simp [hl])
          simp only [runOps, liveDestroyCount, createCount] at hrec ⊢
          omega
      | processOp id input n =>
          have hlen : (step ops s (Op.processOp id input n)).instances.length =
              s.instances.length := by
            show (nam_process ops s id input n).1.instances.length = _
            unfold nam_process
            cases hl : lookupA s.instances id with
            | none => rfl
            | some v =>
                cases v with
                | none => rfl
                | some e =>
                    exact length_setA_present s.instances id _ (by simp [hl])
          simp only [runOps, liveDestroyCount, createCount] at hrec ⊢
          omega
      | setRate r =>
          have hlen : (step ops s (Op.setRate r)).instances.length =
              s.instances.length := by
            show (mapVals _ s.instances).length = _
            simp [mapVals]
          simp only [runOps, liveDestroyCount, createCount] at hrec ⊢
          omega
      | setMaxBuf m =>
          have hlen : (step ops s (Op.setMaxBuf m)).instances.length =
              s.instances.length := by
            show (mapVals _ s.instances).length = _
            simp [mapVals]
          simp only [runOps, liveDestroyCount, createCount] at hrec ⊢
          omega

/-! The claims. -/

/-- C1: for every handle that is either absent from the registry or present
with a null engine slot, `nam_process` returns the first `numFrames` input
samples verbatim, in order (bypass identity), leaves the state unchanged and
signals no error (the operation is total).  This covers a freshly created
instance and a destroyed or never-created handle. -/
theorem c1_process_bypass (ops : EngineOps ε) (s : NamState ε) (id : Int)
    (input : List Float) (numFrames : Nat)
    (h : lookupA s.instances id = none ∨ lookupA s.instances id = some none) :
    nam_process ops s id input numFrames = (s, input.take numFrames) := by
  unfold nam_process
  rcases h with h | h <;> rw [h]

/-- Witness for C1: a freshly created instance (handle 0) and a never-created
handle 9999 both bypass the block `[1.0, -2.0, 0.5]`. -/
theorem c1_process_bypass_witness :
    nam_process okOps stateOne 0 [1.0, -2.0, 0.5] 3 =
      (stateOne, ([1.0, -2.0, 0.5] : List Float).take 3) ∧
    nam_process okOps stateOne 9999 [1.0, -2.0, 0.5] 3 =
      (stateOne, ([1.0, -2.0, 0.5] : List Float).take 3) :=
  ⟨c1_process_bypass okOps stateOne 0 [1.0, -2.0, 0.5] 3 (Or.inr rfl),
   c1_process_bypass okOps stateOne 9999 [1.0, -2.0, 0.5] 3 (Or.inl rfl)⟩

/-- C2: when `nam_loadModel` returns `false` (unknown handle, null factory
result, or a thrown exception), the whole registry — in particular the
instance's engine slot and `nam_hasModel` — is exactly what it was before the
call; no previously loaded engine is destroyed or replaced. -/
theorem c2_loadModel_failure_preserves (ops : EngineOps ε) (s : NamState ε)
    (id : Int) (json : String)
    (h : (nam_loadModel ops s id json).1 = false) :
    (nam_loadModel ops s id json).2.instances = s.instances ∧
    nam_hasModel (nam_loadModel ops s id json).2 id = nam_hasModel s id := by
  rcases loadModel_instances ops s id json with ⟨_, hi⟩ | ⟨ht, _, _⟩
  · exact ⟨hi, by unfold nam_hasModel; rw [hi]⟩
  · rw [ht] at h; cases h

/-- Witness for C2: a load whose factory returns a null engine fails on the
fresh instance 0 and leaves the registry unchanged. -/
theorem c2_loadModel_failure_preserves_witness :
    (nam_loadModel nullOps stateOne 0 "bad").2.instances = stateOne.instances ∧
    nam_hasModel (nam_loadModel nullOps stateOne 0 "bad").2 0 =
      nam_hasModel stateOne 0 :=
  c2_loadModel_failure_preserves nullOps stateOne 0 "bad" rfl

/-- C7: after `nam_unloadModel` a live handle stays live with an empty engine
slot, `nam_hasModel` returns `false` and a subsequent `nam_process` performs
the bypass copy; on an unknown handle, or a handle already holding no engine,
`nam_unloadModel` is a no-op (the state is unchanged) and signals no error. -/
theorem c7_unloadModel (ops : EngineOps ε) (s : NamState ε) (id : Int)
    (input : List Float) (n : Nat) :
    (∀ v : Option ε, lookupA s.instances id = some v →
       lookupA (nam_unloadModel s id).instances id = some none ∧
       nam_hasModel (nam_unloadModel s id) id = false ∧
       nam_process ops (nam_unloadModel s id) id input n =
         (nam_unloadModel s id, input.take n)) ∧
    (lookupA s.instances id = none → nam_unloadModel s id = s) ∧
    (lookupA s.instances id = some none → nam_unloadModel s id = s) := by
  refine ⟨fun v hv => ?_, fun h => ?_, fun h => ?_⟩
  · have hres : (nam_unloadModel s id).instances = setA s.instances id none := by
      unfold nam_unloadModel
      rw [hv]
    have hlook : lookupA (nam_unloadModel s id).instances id = some none := by
      rw [hres]; exact lookupA_setA_self _ _ _
    refine ⟨hlook, ?_, ?_⟩
    · unfold nam_hasModel
      rw [hlook]
    · unfold nam_process
      rw [hlook]
  · unfold nam_unloadModel
    rw [h]
  · unfold nam_unloadModel
    rw [h, setA_lookup_self s.instances id none h]

/-- Witness for C7: unloading the fresh (already empty) instance 0 leaves the
slot empty, `nam_hasModel` false, the next `nam_process` bypassing, and the
state unchanged. -/
theorem c7_unloadModel_witness :
    (lookupA (nam_unloadModel stateOne 0).instances 0 = some none ∧
     nam_hasModel (nam_unloadModel stateOne 0) 0 = false ∧
     nam_process okOps (nam_unloadModel stateOne 0) 0 [2.0, 3.0] 2 =
       (nam_unloadModel stateOne 0, ([2.0, 3.0] : List Float).take 2)) ∧
    nam_unloadModel stateOne 0 = stateOne :=
  ⟨(c7_unloadModel okOps stateOne 0 [2.0, 3.0] 2).1 none rfl,
   (c7_unloadModel okOps stateOne 0 [2.0, 3.0] 2).2.2 rfl⟩

/-- C8: `nam_getModelLoudness` returns `0` and `nam_hasModelLoudness` returns
`false` when the handle is unknown, the instance holds no engine, or the
engine exposes no loudness metadata; when the engine is present with loudness
metadata they return its loudness and `true`.  Both are total functions, so
neither raises. -/
theorem c8_loudness (ops : EngineOps ε) (s : NamState ε) (id : Int) :
    ((lookupA s.instances id = none ∨ lookupA s.instances id = some none) →
      nam_getModelLoudness ops s id = 0.0 ∧
      nam_hasModelLoudness ops s id = false) ∧
    (∀ e : ε, lookupA s.instances id = some (some e) →
      (ops.HasLoudness e = false →
        nam_getModelLoudness ops s id = 0.0 ∧
        nam_hasModelLoudness ops s id = false) ∧
      (ops.HasLoudness e = true →
        nam_getModelLoudness ops s id = ops.GetLoudness e ∧
        nam_hasModelLoudness ops s id = true)) := by
  constructor
  · intro h
    unfold nam_getModelLoudness nam_hasModelLoudness
    rcases h with h | h <;> rw [h] <;> exact ⟨rfl, rfl⟩
  · intro e he
    unfold nam_getModelLoudness nam_hasModelLoudness
    rw [he]
    exact ⟨fun hf => by simp [hf], fun ht => by simp [ht]⟩

/-- Witness for C8: on a loaded engine exposing loudness `-18.0` the getters
return `(-18.0, true)`; on the never-created handle 9999 they return
`(0, false)`. -/
theorem c8_loudness_witness :
    (nam_getModelLoudness loudOps stateLoaded 0 = loudOps.GetLoudness () ∧
     nam_hasModelLoudness loudOps stateLoaded 0 = true) ∧
    (nam_getModelLoudness loudOps stateLoaded 9999 = 0.0 ∧
     nam_hasModelLoudness loudOps stateLoaded 9999 = false) :=
  ⟨((c8_loudness loudOps stateLoaded 0).2 () rfl).2 rfl,
   (c8_loudness loudOps stateLoaded 9999).1 (Or.inl rfl)⟩

/-- C9: `nam_destroyInstance` is idempotent — destroying twice equals
destroying once, and destroying an unknown (or already destroyed) handle
leaves the entire state unchanged and signals no error. -/
theorem c9_destroy_idem (s : NamState ε) (id : Int) :
    nam_destroyInstance (nam_destroyInstance s id) id =
      nam_destroyInstance s id ∧
    (lookupA s.instances id = none → nam_destroyInstance s id = s) := by
  constructor
  · unfold nam_destroyInstance
    simp [eraseA_idem]
  · intro h
    unfold nam_destroyInstance
    rw [eraseA_of_lookup_none s.instances id h]

/-- Witness for C9: destroying the never-created handle 9999 leaves the
one-instance state unchanged, and doing it twice equals doing it once. -/
theorem c9_destroy_idem_witness :
    nam_destroyInstance (nam_destroyInstance stateOne 9999) 9999 =
      nam_destroyInstance stateOne 9999 ∧
    nam_destroyInstance stateOne 9999 = stateOne :=
  ⟨(c9_destroy_idem stateOne 9999).1,
   (c9_destroy_idem stateOne 9999).2 rfl⟩

/-- C10: every per-handle operation (`nam_loadModel`, `nam_unloadModel`,
`nam_reset`, `nam_destroyInstance`, `nam_process`) on handle `h` leaves the
registry entry of every other handle `hh ≠ h` unchanged (same presence and
same engine slot), and leaves the global `sampleRate` and `maxBufferSize`
unchanged. -/
theorem c10_frame (ops : EngineOps ε) (s : NamState ε) (h hh : Int)
    (json : String) (input : List Float) (n : Nat) (hne : hh ≠ h) :
    (lookupA (nam_loadModel ops s h json).2.instances hh =
        lookupA s.instances hh ∧
      (nam_loadModel ops s h json).2.sampleRate = s.sampleRate ∧
      (nam_loadModel ops s h json).2.maxBufferSize = s.maxBufferSize) ∧
    (lookupA (nam_unloadModel s h).instances hh = lookupA s.instances hh ∧
      (nam_unloadModel s h).sampleRate = s.sampleRate ∧
      (nam_unloadModel s h).maxBufferSize = s.maxBufferSize) ∧
    (lookupA (nam_reset ops s h).instances hh = lookupA s.instances hh ∧
      (nam_reset ops s h).sampleRate = s.sampleRate ∧
      (nam_reset ops s h).maxBufferSize = s.maxBufferSize) ∧
    (lookupA (nam_destroyInstance s h).instances hh = lookupA s.instances hh ∧
      (nam_destroyInstance s h).sampleRate = s.sampleRate ∧
      (nam_destroyInstance s h).maxBufferSize = s.maxBufferSize) ∧
    (lookupA (nam_process ops s h input n).1.instances hh =
        lookupA s.instances hh ∧
      (nam_process ops s h input n).1.sampleRate = s.sampleRate ∧
      (nam_process ops s h input n).1.maxBufferSize = s.maxBufferSize) := by
  refine ⟨⟨?_, (loadModel_fields ops s h json).2⟩,
          ⟨?_, (unloadModel_fields s h).2⟩,
          ⟨?_, (reset_fields ops s h).2⟩,
          ⟨?_, rfl, rfl⟩,
          ⟨?_, (process_fields ops s h input n).2⟩⟩
  · rcases loadModel_instances ops s h json with ⟨_, hi⟩ | ⟨_, _, d, _, hi⟩ <;>
      rw [hi]
    exact lookupA_setA_ne _ _ _ _ hne
  · unfold nam_unloadModel
    cases lookupA s.instances h with
    | none => rfl
    | some v => exact lookupA_setA_ne _ _ _ _ hne
  · unfold nam_reset
    rcases lookupA s.instances h with _ | (_ | e)
    · rfl
    · rfl
    · exact lookupA_setA_ne _ _ _ _ hne
  · exact lookupA_eraseA_ne _ _ _ hne
  · unfold nam_process
    rcases lookupA s.instances h with _ | (_ | e)
    · rfl
    · rfl
    · exact lookupA_setA_ne _ _ _ _ hne

/-- Witness for C10: the five per-handle operations on handle 0 leave the
(absent) registry entry of handle 1 and the global config unchanged. -/
theorem c10_frame_witness :
    (lookupA (nam_loadModel okOps stateOne 0 "model").2.instances 1 =
        lookupA stateOne.instances 1 ∧
      (nam_loadModel okOps stateOne 0 "model").2.sampleRate =
        stateOne.sampleRate ∧
      (nam_loadModel okOps stateOne 0 "model").2.maxBufferSize =
        stateOne.maxBufferSize) ∧
    (lookupA (nam_unloadModel stateOne 0).instances 1 =
        lookupA stateOne.instances 1 ∧
      (nam_unloadModel stateOne 0).sampleRate = stateOne.sampleRate ∧
      (nam_unloadModel stateOne 0).maxBufferSize = stateOne.maxBufferSize) ∧
    (lookupA (nam_reset okOps stateOne 0).instances 1 =
        lookupA stateOne.instances 1 ∧
      (nam_reset okOps stateOne 0).sampleRate = stateOne.sampleRate ∧
      (nam_reset okOps stateOne 0).maxBufferSize = stateOne.maxBufferSize) ∧
    (lookupA (nam_destroyInstance stateOne 0).instances 1 =
        lookupA stateOne.instances 1 ∧
      (nam_destroyInstance stateOne 0).sampleRate = stateOne.sampleRate ∧
      (nam_destroyInstance stateOne 0).maxBufferSize =
        stateOne.maxBufferSize) ∧
    (lookupA (nam_process okOps stateOne 0 [1.0] 1).1.instances 1 =
        lookupA stateOne.instances 1 ∧
      (nam_process okOps stateOne 0 [1.0] 1).1.sampleRate =
        stateOne.sampleRate ∧
      (nam_process okOps stateOne 0 [1.0] 1).1.maxBufferSize =
        stateOne.maxBufferSize) :=
  c10_frame okOps stateOne 0 1 "model" [1.0] 1 (by decide)

/-- C4 counterexample: on a fresh instance whose factory yields no engine,
`nam_loadModel` returns `false` (a failed load) yet flips `fastTanhEnabled`
from `false` to `true` — the flag does become true through a `loadModel` call
that returns failure, because the source sets it before constructing the
engine. -/
theorem c4_counterexample :
    stateOne.fastTanhEnabled = false ∧
    (nam_loadModel nullOps stateOne 0 "bad").1 = false ∧
    (nam_loadModel nullOps stateOne 0 "bad").2.fastTanhEnabled = true :=
  ⟨rfl, rfl, rfl⟩

/-- C4 (amended): the flag is false at process start and never reverts to
false; it is set to true by exactly the `nam_loadModel` calls whose handle is
present in the registry — the first such call sets it whether or not the load
succeeds — and no other operation changes it. -/
theorem c4_flag_amended (ops : EngineOps ε) :
    (initState ε).fastTanhEnabled = false ∧
    (∀ (s : NamState ε) (op : Op), s.fastTanhEnabled = true →
      (step ops s op).fastTanhEnabled = true) ∧
    (∀ (s : NamState ε) (id : Int) (json : String),
      (lookupA s.instances id).isSome →
      (nam_loadModel ops s id json).2.fastTanhEnabled = true) ∧
    (∀ (s : NamState ε) (op : Op),
      (step ops s op).fastTanhEnabled = true →
      s.fastTanhEnabled = true ∨
        ∃ id json, op = Op.load id json ∧ (lookupA s.instances id).isSome) := by
  refine ⟨rfl, fun s op hs => ?_, loadModel_flag_known ops, fun s op hst => ?_⟩
  · rcases step_flag ops s op with hf | ⟨id, json, _, _, hf⟩ <;> rw [hf]
    exact hs
  · rcases step_flag ops s op with hf | ⟨id, json, hop, hp, _⟩
    · left; rw [← hf]; exact hst
    · exact Or.inr ⟨id, json, hop, hp⟩

/-- Witness for C4 (amended): the flag stays true across a destroy once set,
a known-handle load sets it, and a step that turned it on was a known-handle
load. -/
theorem c4_flag_amended_witness :
    (step okOps stateLoaded (Op.destroy 0)).fastTanhEnabled = true ∧
    (nam_loadModel okOps stateOne 0 "model").2.fastTanhEnabled = true ∧
    (stateOne.fastTanhEnabled = true ∨
      ∃ id json, Op.load 0 "model" = Op.load id json ∧
        (lookupA stateOne.instances id).isSome) :=
  ⟨(c4_flag_amended okOps).2.1 stateLoaded (Op.destroy 0) rfl,
   (c4_flag_amended okOps).2.2.1 stateOne 0 "model" rfl,
   (c4_flag_amended okOps).2.2.2 stateOne (Op.load 0 "model") rfl⟩

/-- C3: over every sequence of operations from process start (in particular
every sequence of `nam_createInstance` / `nam_destroyInstance` calls), the
handles returned by successive `nam_createInstance` calls are non-negative
and pairwise strictly increasing in call order — so no handle is ever issued
twice, even after the instance bearing it has been destroyed. -/
theorem c3_handles_increasing (ops : EngineOps ε) (l : List Op) :
    (issued ops (initState ε) l).Pairwise (· < ·) ∧
      ∀ h ∈ issued ops (initState ε) l, 0 ≤ h := by
  obtain ⟨hlb, hpw⟩ := issued_aux ops l (initState ε)
  exact ⟨hpw, fun h hm => hlb h hm⟩

/-- Witness for C3: the trace create–destroy 0–create issues the handles
`[0, 1]`, pairwise strictly increasing. -/
theorem c3_handles_increasing_witness :
    (issued okOps (initState Unit)
      [Op.create, Op.destroy 0, Op.create]).Pairwise (· < ·) :=
  (c3_handles_increasing okOps [Op.create, Op.destroy 0, Op.create]).1

/-- C6: over every sequence of operations from process start,
`nam_getInstanceCount` equals the number of `nam_createInstance` calls minus
the number of `nam_destroyInstance` calls whose handle was present in the
registry at the time of the call; `nam_unloadModel` never changes the
count. -/
theorem c6_instance_count (ops : EngineOps ε) (l : List Op) :
    nam_getInstanceCount (runOps ops (initState ε) l) =
      (createCount l : Int) - (liveDestroyCount ops (initState ε) l : Int) ∧
    ∀ (s : NamState ε) (id : Int),
      nam_getInstanceCount (nam_unloadModel s id) = nam_getInstanceCount s := by
  constructor
  · have h := count_aux ops l (initState ε) (namInv_init ε)
    have hinit : (initState ε).instances.length = 0 := rfl
    unfold nam_getInstanceCount
    omega
  · intro s id
    unfold nam_getInstanceCount nam_unloadModel
    cases hl : lookupA s.instances id with
    | none => rfl
    | some v =>
        have := length_setA_present s.instances id (none : Option ε) (by simp [hl])
        simp [this]

/-- Witness for C6: after create–create–destroy 0–destroy 0 the count is
2 creates minus 1 live destroy (the second destroy hits a dead handle). -/
theorem c6_instance_count_witness :
    nam_getInstanceCount (runOps okOps (initState Unit)
        [Op.create, Op.create, Op.destroy 0, Op.destroy 0]) =
      (createCount [Op.create, Op.create, Op.destroy 0, Op.destroy 0] : Int) -
        (liveDestroyCount okOps (initState Unit)
          [Op.create, Op.create, Op.destroy 0, Op.destroy 0] : Int) :=
  (c6_instance_count okOps
    [Op.create, Op.create, Op.destroy 0, Op.destroy 0]).1

/-- C5: `nam_setSampleRate rate` installs `rate` as the current sample rate,
keeps `maxBufferSize`, and every engine present afterwards is the engine that
was present before, synchronously reconfigured via `Reset` with the then
current pair `(rate, maxBufferSize)`; symmetrically for
`nam_setMaxBufferSize`; and a subsequent successful `nam_loadModel` stores an
engine already configured (`Reset`, then `prewarm`) with the current pair, so
no further reconfiguration call is required. -/
theorem c5_config_propagation (ops : EngineOps ε) (s : NamState ε)
    (rate : Float) (size : Int) (id : Int) (json : String) :
    ((nam_setSampleRate ops s rate).sampleRate = rate ∧
     (nam_setSampleRate ops s rate).maxBufferSize = s.maxBufferSize ∧
     ∀ e' : ε, lookupA (nam_setSampleRate ops s rate).instances id =
         some (some e') →
       ∃ e : ε, lookupA s.instances id = some (some e) ∧
         e' = ops.Reset e rate s.maxBufferSize) ∧
    ((nam_setMaxBufferSize ops s size).maxBufferSize = size ∧
     (nam_setMaxBufferSize ops s size).sampleRate = s.sampleRate ∧
     ∀ e' : ε, lookupA (nam_setMaxBufferSize ops s size).instances id =
         some (some e') →
       ∃ e : ε, lookupA s.instances id = some (some e) ∧
         e' = ops.Reset e s.sampleRate size) ∧
    ((nam_loadModel ops s id json).1 = true →
      ∃ d : ε, ops.getDsp json = .ok (some d) ∧
        lookupA (nam_loadModel ops s id json).2.instances id =
          some (some (ops.prewarm (ops.Reset d s.sampleRate s.maxBufferSize)))) := by
  refine ⟨⟨rfl, rfl, fun e' he' => ?_⟩, ⟨rfl, rfl, fun e' he' => ?_⟩,
          fun hs => ?_⟩
  · have hm : lookupA (nam_setSampleRate ops s rate).instances id =
        (lookupA s.instances id).map
          (Option.map fun e => ops.Reset e rate s.maxBufferSize) :=
      lookupA_mapVals _ s.instances id
    rw [hm] at he'
    cases hx : lookupA s.instances id with
    | none => rw [hx] at he'; cases he'
    | some v =>
        cases v with
        | none => rw [hx] at he'; cases he'
        | some e =>
            rw [hx] at he'
            simp at he'
            exact ⟨e, rfl, he'.symm⟩
  · have hm : lookupA (nam_setMaxBufferSize ops s size).instances id =
        (lookupA s.instances id).map
          (Option.map fun e => ops.Reset e s.sampleRate size) :=
      lookupA_mapVals _ s.instances id
    rw [hm] at he'
    cases hx : lookupA s.instances id with
    | none => rw [hx] at he'; cases he'
    | some v =>
        cases v with
        | none => rw [hx] at he'; cases he'
        | some e =>
            rw [hx] at he'
            simp at he'
            exact ⟨e, rfl, he'.symm⟩
  · rcases loadModel_instances ops s id json with ⟨hf, _⟩ | ⟨_, _, d, hd, hi⟩
    · rw [hf] at hs; cases hs
    · exact ⟨d, hd, by rw [hi]; exact lookupA_setA_self _ _ _⟩

/-- Witness for C5: with one loaded engine, `nam_setSampleRate 44100.0`
yields the old engine reconfigured with `(44100.0, 128)`,
`nam_setMaxBufferSize 256` yields it reconfigured with `(48000.0, 256)`, and
the successful load on the fresh instance stored an engine configured with
the current pair at load time. -/
theorem c5_config_propagation_witness :
    (∃ e : Unit, lookupA stateLoaded.instances 0 = some (some e) ∧
       () = okOps.Reset e 44100.0 stateLoaded.maxBufferSize) ∧
    (∃ e : Unit, lookupA stateLoaded.instances 0 = some (some e) ∧
       () = okOps.Reset e stateLoaded.sampleRate 256) ∧
    (∃ d : Unit, okOps.getDsp "model" = .ok (some d) ∧
       lookupA (nam_loadModel okOps stateOne 0 "model").2.instances 0 =
         some (some (okOps.prewarm
           (okOps.Reset d stateOne.sampleRate stateOne.maxBufferSize)))) :=
  ⟨(c5_config_propagation okOps stateLoaded 44100.0 256 0 "model").1.2.2 () rfl,
   (c5_config_propagation okOps stateLoaded 44100.0 256 0 "model").2.1.2.2 () rfl,
   (c5_config_propagation okOps stateOne 44100.0 256 0 "model").2.2 rfl⟩

end NamWasm
